import Mathlib

/-!
Verification of the reconciliation & anomaly-classification engine.

The Python sources embedded here are `data_processor.py`,
`anomaly_classifier.py`, `anomaly_detector.py`, `ai_insights.py` and
`reconciliation_workflow.py`.  Dataframes are modelled as `List Row`;
numeric cells as `ℚ` (balances are rounded to 2 decimal places by the
pipeline); nullable cells (`NaN`) as `Option ℚ`; dates as integer day
ordinals.  Where the Python code checks for the *presence* of a dataframe
column (`row.get`, `'Match Status' not in df.columns`), presence is an
explicit `Bool` argument.  Calls into scikit-learn (IsolationForest,
StandardScaler) are kept abstract as function parameters, since that
library is external to the repository; the `fitted` state of the
per-instance scaler/model is threaded explicitly because
`StandardScaler.transform` raises `NotFittedError` when no fit happened.
-/

namespace Recon

/-- One row of the dataframe after `DataProcessor.clean_data`: `AsofDate`
parsed and non-null (integer day ordinal), text columns stripped strings,
`GL Balance` / `IHUB Balance` parsed non-null numerics.  Columns added by
later stages are carried as fields with inert defaults; the pipeline always
writes them before any stage reads them. -/
structure Row where
  asofDate : Int
  company : String
  account : String
  au : String
  currency : String
  primaryAccount : String
  secondaryAccount : String
  glBalance : ℚ
  ihubBalance : ℚ
  compositeKey : String := ""
  balanceDifference : ℚ := 0
  absDifference : ℚ := 0
  matchStatus : String := ""
  pctDifference : Option ℚ := none
  prevBalanceDifference : Option ℚ := none
  differenceChange : Option ℚ := none
  isAnomaly : Int := 0
  anomalyScore : ℚ := 0
  breakClassification : String := ""
  comments : String := ""
  deriving Repr, DecidableEq, Inhabited

/-- Round a rational to the nearest integer, ties to even — the rounding
used by pandas `Series.round` (IEEE round-half-even). -/
def roundHalfEven (x : ℚ) : ℤ :=
  let f := ⌊x⌋
  let frac := x - f
  if frac < 1/2 then f
  else if 1/2 < frac then f + 1
  else if f % 2 = 0 then f else f + 1

/-- Rounding to 2 decimal places, `Series.round(2)`. -/
def round2 (x : ℚ) : ℚ := (roundHalfEven (x * 100) : ℚ) / 100

/-- The composite grouping key built in `DataProcessor.preprocess_data`:
Company, Account, AU, Currency and Primary Account joined with `_`. -/
def makeCompositeKey (r : Row) : String :=
  r.company ++ "_" ++ r.account ++ "_" ++ r.au ++ "_" ++ r.currency
    ++ "_" ++ r.primaryAccount

/-- The sort order of `sort_values(['CompositeKey', 'AsofDate'])`:
lexicographic on (composite key, as-of date). -/
def rowLE (a b : Row) : Prop :=
  a.compositeKey < b.compositeKey ∨
    (a.compositeKey = b.compositeKey ∧ a.asofDate ≤ b.asofDate)

instance : DecidableRel rowLE := fun _ _ =>
  inferInstanceAs (Decidable (_ ∨ _))

instance : IsTotal Row rowLE := by
  constructor
  intro a b
  rcases lt_trichotomy a.compositeKey b.compositeKey with h | h | h
  · exact Or.inl (Or.inl h)
  · rcases le_total a.asofDate b.asofDate with h2 | h2
    · exact Or.inl (Or.inr ⟨h, h2⟩)
    · exact Or.inr (Or.inr ⟨h.symm, h2⟩)
  · exact Or.inr (Or.inl h)

instance : IsTrans Row rowLE := by
  constructor
  intro a b c hab hbc
  rcases hab with h1 | ⟨e1, d1⟩
  · rcases hbc with h2 | ⟨e2, _⟩
    · exact Or.inl (h1.trans h2)
    · exact Or.inl (e2 ▸ h1)
  · rcases hbc with h2 | ⟨e2, d2⟩
    · exact Or.inl (e1 ▸ h2)
    · exact Or.inr ⟨e1.trans e2, d1.trans d2⟩

/-- Per-row body of `DataProcessor.preprocess_data`: round the two balance
columns to two decimals and build the composite key. -/
def preRow (r : Row) : Row :=
  let r2 := { r with glBalance := round2 r.glBalance,
                     ihubBalance := round2 r.ihubBalance }
  { r2 with compositeKey := makeCompositeKey r2 }

/-- Embeds `DataProcessor.preprocess_data`: round the two balance columns to two
decimals, build the composite key, sort by (composite key, as-of date). -/
def preprocess_data (df : List Row) : List Row :=
  List.insertionSort rowLE (df.map preRow)

/-- Per-row body of `DataProcessor.calculate_differences`. -/
def calcRow (r : Row) : Row :=
  let bd := r.glBalance - r.ihubBalance
  { r with
      balanceDifference := bd
      absDifference := |bd|
      matchStatus := if |bd| < 1 then "Match" else "Break"
      pctDifference :=
        if r.ihubBalance ≠ 0 then some (bd / r.ihubBalance * 100) else none }

/-- Embeds `DataProcessor.calculate_differences`: Balance Difference, Abs
Difference, Match Status (`np.where(abs < 1, 'Match', 'Break')`) and Pct
Difference (`np.where(ihub != 0, bd / ihub * 100, nan)`). -/
def calculate_differences (df : List Row) : List Row := df.map calcRow

/-- Recursion behind `groupby('CompositeKey')['Balance Difference'].shift(1)`:
walk the frame in order keeping, per composite key, the Balance Difference
of the most recent earlier row with that key. -/
def addPrevAux : List (String × ℚ) → List Row → List Row
  | _, [] => []
  | m, r :: rs =>
    let p := m.lookup r.compositeKey
    { r with prevBalanceDifference := p,
             differenceChange := p.map fun q => r.balanceDifference - q }
      :: addPrevAux ((r.compositeKey, r.balanceDifference) :: m) rs

/-- Embeds `DataProcessor.add_previous_differences`: the grouped shift plus
`Difference Change = Balance Difference - Previous Balance Difference`
(null-propagating, as NaN arithmetic does). -/
def add_previous_differences (df : List Row) : List Row := addPrevAux [] df

/-- The Difference Engine: `preprocess_data`, `calculate_differences`,
`add_previous_differences`, chained as in `DataProcessor.full_pipeline`. -/
def differenceEngine (df : List Row) : List Row :=
  add_previous_differences (calculate_differences (preprocess_data df))

/-- Embeds `np.sign` on a non-NaN value. -/
def sign (x : ℚ) : Int := if 0 < x then 1 else if x < 0 then -1 else 0

/-- Embeds `HybridAnomalyClassifier.classify_break` on the three cells it reads.
`p = none` models a NaN `Previous Balance Difference`; the caller
(`classify_all` below) passes `some 0` when the column is absent, which is
what `row.get('Previous Balance Difference', 0)` yields.  `abs_prev_diff`
is `abs(prev_diff) if pd.notna(prev_diff) else 0`, i.e. `|p.getD 0|`. -/
def classify_break (matchStatus : String) (d : ℚ) (p : Option ℚ) : String :=
  if matchStatus = "Match" then "Within Tolerance"
  else if |d| < 1 then "Small Difference"
  else if p = none then "New Difference"
  else if 10000 < |d| then "Large Difference"
  else if (1/2) * |p.getD 0| < |d - p.getD 0| then "Significant Variance"
  else if sign d ≠ sign (p.getD 0) then "Direction Change"
  else if |d - p.getD 0| < (1/10) * |p.getD 0| then "Consistent Difference"
  else "Moderate Difference"

/-- Embeds `HybridAnomalyClassifier.classify_all`.  `hasMatchStatusCol` models
`'Match Status' in df.columns`; when `hasPrevDiffCol` is false,
`row.get('Previous Balance Difference', 0)` returns the non-null number 0
for every row. -/
def classify_all (hasMatchStatusCol hasPrevDiffCol : Bool) (df : List Row) :
    Except String (List Row) :=
  if hasMatchStatusCol = false then
    .error "Match Status column not found. Run reconciliation first."
  else
    .ok (df.map fun r =>
      { r with breakClassification :=
          (classify_break r.matchStatus r.balanceDifference
            (if hasPrevDiffCol then r.prevBalanceDifference else some 0)) })

/-- Feature vector used by the anomaly detector:
`[['Balance Difference', 'Previous Balance Difference']].fillna(0)`. -/
def breakFeature (r : Row) : ℚ × ℚ :=
  (r.balanceDifference, r.prevBalanceDifference.getD 0)

/-- The `.map({1: 0, -1: 1})` applied to IsolationForest labels; any other
value maps to NaN, which the later `.fillna(0)` turns into 0. -/
def mapBinaryLabel (v : Int) : Option Int :=
  if v = 1 then some 0 else if v = -1 then some 1 else none

/-- Distribute the per-break label list over the frame: the left-index merge
of `breaks_df[['Is Anomaly']]` back into `df`, followed by
`fillna(0).astype(int)` (non-break rows, and any NaN from the map, get 0).
scikit-learn returns exactly one label per break sample, so the
`labels = []` fallback for a break row is never reached on real output. -/
def assignAnomalies : List Row → List Int → List Row
  | [], _ => []
  | r :: rs, labels =>
    if r.matchStatus = "Break" then
      match labels with
      | l :: ls =>
        { r with isAnomaly := (mapBinaryLabel l).getD 0 } :: assignAnomalies rs ls
      | [] => { r with isAnomaly := 0 } :: assignAnomalies rs []
    else
      { r with isAnomaly := 0 } :: assignAnomalies rs labels

/-- Embeds `AnomalyDetector.detect_anomalies`.  `fitPredict` abstracts
`scaler.fit_transform` followed by `model.fit_predict` (external
scikit-learn code).  The returned Bool records whether the per-instance
scaler/model were fitted: with zero breaks the method returns early and
nothing is fitted. -/
def detect_anomalies (fitPredict : List (ℚ × ℚ) → List Int) (df : List Row) :
    List Row × Bool :=
  let breaksDf := df.filter fun r => r.matchStatus == "Break"
  if breaksDf.isEmpty then
    (df.map fun r => { r with isAnomaly := 0 }, false)
  else
    (assignAnomalies df (fitPredict (breaksDf.map breakFeature)), true)

/-- Column assignment `df['Anomaly Score'] = -model.score_samples(...)`:
one score per row, negated (higher = more anomalous). -/
def assignScores : List Row → List ℚ → List Row
  | [], _ => []
  | r :: rs, [] => { r with anomalyScore := 0 } :: assignScores rs []
  | r :: rs, s :: ss => { r with anomalyScore := -s } :: assignScores rs ss

/-- Embeds `AnomalyDetector.calculate_anomaly_scores`.  `scoreSamples` abstracts
`scaler.transform` followed by `model.score_samples`.  The source only
guards `len(features) == 0` (an empty frame); on a non-empty frame with an
unfitted scaler, `scaler.transform` raises scikit-learn's
`NotFittedError`. -/
def calculate_anomaly_scores (scoreSamples : List (ℚ × ℚ) → List ℚ)
    (scalerFitted : Bool) (df : List Row) : Except String (List Row) :=
  let features := df.map breakFeature
  if features.length = 0 then
    .ok (df.map fun r => { r with anomalyScore := 0 })
  else if scalerFitted = false then
    .error "NotFittedError: This StandardScaler instance is not fitted yet."
  else
    .ok (assignScores df (scoreSamples features))

/-- The Anomaly Scorer as invoked by `ReconciliationWorkflow.execute`:
`detect_anomalies` then `calculate_anomaly_scores` on one shared
`AnomalyDetector` instance. -/
def anomalyScorerRun (fitPredict : List (ℚ × ℚ) → List Int)
    (scoreSamples : List (ℚ × ℚ) → List ℚ) (df : List Row) :
    Except String (List Row) :=
  let p := detect_anomalies fitPredict df
  calculate_anomaly_scores scoreSamples p.2 p.1

/-- Embeds `AIIInsightsGenerator.generate_break_comments`.  The module
`ai_insights.py` never imports numpy, yet the `llm_chain is None` branch
evaluates `np.where(...)`: that branch raises
`NameError: name 'np' is not defined`.  With an LLM chain present,
comments are generated per break row and merged back via `df.update`. -/
def generate_break_comments (hasLLMChain : Bool) (llmGen : Row → String)
    (df : List Row) : Except String (List Row) :=
  if hasLLMChain = false then
    .error "NameError: name np is not defined"
  else if (df.filter fun r => r.matchStatus == "Break").isEmpty then
    .ok df
  else
    .ok (df.map fun r =>
      if r.matchStatus = "Break" then { r with comments := llmGen r } else r)

/-- Embeds `AIIInsightsGenerator.generate_executive_summary`: with no LLM chain it
returns a fixed placeholder before touching the data. -/
def generate_executive_summary (hasLLMChain : Bool)
    (llmSummary : List Row → String) (df : List Row) : String :=
  if hasLLMChain = false then
    "AI summary unavailable (no HuggingFace token provided)"
  else llmSummary df

/-- Embeds `ReconciliationWorkflow.execute` steps 1–4 (file I/O of step 5 is an
external collaborator): Difference Engine, Anomaly Scorer, Break
Classifier, AI insights.  `hasToken` models the truthiness of `hf_token`,
which decides whether `AIIInsightsGenerator` builds an LLM chain.  Any
stage exception propagates to the surrounding `try`. -/
def executeCore (hasToken : Bool) (fitPredict : List (ℚ × ℚ) → List Int)
    (scoreSamples : List (ℚ × ℚ) → List ℚ) (llmGen : Row → String)
    (llmSummary : List Row → String) (rows : List Row) :
    Except String (List Row × String) := do
  let df := differenceEngine rows
  let df ← anomalyScorerRun fitPredict scoreSamples df
  let df ← classify_all true true df
  let df ← generate_break_comments hasToken llmGen df
  return (df, generate_executive_summary hasToken llmSummary df)

/-- The `try/except` wrapper of `ReconciliationWorkflow.execute`: any
exception is caught and the method returns False. -/
def execute (hasToken : Bool) (fitPredict : List (ℚ × ℚ) → List Int)
    (scoreSamples : List (ℚ × ℚ) → List ℚ) (llmGen : Row → String)
    (llmSummary : List Row → String) (rows : List Row) : Bool :=
  match executeCore hasToken fitPredict scoreSamples llmGen llmSummary rows with
  | .ok _ => true
  | .error _ => false

/-- The fixed break-classification taxonomy of spec §4.4 / glossary. -/
def breakTaxonomy : List String :=
  ["Within Tolerance", "Small Difference", "New Difference", "Large Difference",
   "Significant Variance", "Direction Change", "Consistent Difference",
   "Moderate Difference"]

/-- First-matching-rule evaluation over an ordered list of
(condition, label) pairs with a default label. -/
def firstLabel : List (Bool × String) → String → String
  | [], dflt => dflt
  | (c, l) :: rest, dflt => if c then l else firstLabel rest dflt

/-- Modelled from the spec: the eight ordered rules of §4.4, written as an
explicit first-match rule chain over `d = balance_difference` and
`p = previous_balance_difference`, with thresholds `small = 1.0`,
`large = 10000.0`, `variance_ratio = 0.5`.  This definition follows the
spec's words and is compared against `classify_break` (from the source). -/
def specRuleChain (matchStatus : String) (d : ℚ) (p : Option ℚ) : String :=
  firstLabel
    [ (matchStatus == "Match", "Within Tolerance"),
      (decide (|d| < 1), "Small Difference"),
      (p.isNone, "New Difference"),
      (decide (10000 < |d|), "Large Difference"),
      (decide ((1/2) * |p.getD 0| < |d - p.getD 0|), "Significant Variance"),
      (decide (sign d ≠ sign (p.getD 0)), "Direction Change"),
      (decide (|d - p.getD 0| < (1/10) * |p.getD 0|), "Consistent Difference") ]
    "Moderate Difference"

/-- Sample row builder for concrete evaluations: one account identity
`(Co, Acc, AU1, USD, PA1)` at day `d` with the two given balances. -/
def mkRow (d : Int) (co acc : String) (gl ih : ℚ) : Row :=
  { asofDate := d, company := co, account := acc, au := "AU1",
    currency := "USD", primaryAccount := "PA1", secondaryAccount := "SA1",
    glBalance := gl, ihubBalance := ih }

/-- Records that already carry the values the Difference Engine computes:
balances fixed by rounding, key equal to the composite key, and the four
derived columns equal to their defining formulas. -/
def Processed (r : Row) : Prop :=
  round2 r.glBalance = r.glBalance
  ∧ round2 r.ihubBalance = r.ihubBalance
  ∧ r.compositeKey = makeCompositeKey r
  ∧ r.balanceDifference = r.glBalance - r.ihubBalance
  ∧ r.absDifference = |r.glBalance - r.ihubBalance|
  ∧ r.matchStatus
      = (if |r.glBalance - r.ihubBalance| < 1 then "Match" else "Break")
  ∧ r.pctDifference
      = (if r.ihubBalance ≠ 0
          then some ((r.glBalance - r.ihubBalance) / r.ihubBalance * 100)
          else none)

def c4df : List Row := [mkRow 1 "Co1" "Acc1" 100 100]

def c4key : String := (preRow (mkRow 1 "Co1" "Acc1" 100 100)).compositeKey

def c4g : List Row := (differenceEngine c4df).filter fun r => r.compositeKey == c4key

def c5df : List Row :=
  [{ mkRow 2 "Co1" "Acc1" 105 100 with matchStatus := "Break", balanceDifference := 5 }]

def c5out : List Row :=
  match classify_all true true c5df with
  | .ok l => l
  | .error _ => []

def c7row : Row :=
  { mkRow 2 "Co1" "Acc1" 105 100 with matchStatus := "Break", balanceDifference := 5 }

def c7fp : List (ℚ × ℚ) → List Int := fun xs => xs.map fun _ => -1

def c7ss : List (ℚ × ℚ) → List ℚ := fun xs => xs.map fun _ => 0

def c7out : List Row :=
  match anomalyScorerRun c7fp c7ss [c7row] with
  | .ok l => l
  | .error _ => []

def c10row : Row :=
  { mkRow 2 "Co1" "Acc1" 105 100 with matchStatus := "Break", balanceDifference := 5 }

def c10out : List Row :=
  match classify_all true false [c10row] with
  | .ok l => l
  | .error _ => []

/-- Casting an integer and rounding changes nothing. -/
theorem roundHalfEven_intCast (n : ℤ) : roundHalfEven (n : ℚ) = n := by
  simp [roundHalfEven]

/-- Values that are an integer number of hundredths are fixed by `round2`. -/
theorem round2_div100 (n : ℤ) : round2 ((n : ℚ) / 100) = (n : ℚ) / 100 := by
  have h : ((n : ℚ) / 100) * 100 = (n : ℚ) := by field_simp
  rw [round2, h, roundHalfEven_intCast]

theorem round2_intCast (n : ℤ) : round2 (n : ℚ) = (n : ℚ) := by
  have : ((n : ℚ)) = (((100 * n : ℤ) : ℚ)) / 100 := by push_cast; ring
  rw [this, round2_div100]

theorem round2_100 : round2 (100 : ℚ) = 100 := by
  simpa using round2_intCast 100

theorem round2_105 : round2 (105 : ℚ) = 105 := by
  simpa using round2_intCast 105

theorem round2_idem (x : ℚ) : round2 (round2 x) = round2 x :=
  round2_div100 (roundHalfEven (x * 100))

theorem mapBinaryLabel_getD (v : Int) :
    (mapBinaryLabel v).getD 0 = 0 ∨ (mapBinaryLabel v).getD 0 = 1 := by
  unfold mapBinaryLabel
  split_ifs <;> simp

theorem assignAnomalies_mem :
    ∀ (rs : List Row) (labels : List Int) (r : Row), r ∈ assignAnomalies rs labels →
      (r.isAnomaly = 0 ∨ r.isAnomaly = 1) ∧ (r.matchStatus = "Match" → r.isAnomaly = 0)
  | [], _, _, h => by simp [assignAnomalies] at h
  | r0 :: rs, labels, r, h => by
    unfold assignAnomalies at h
    by_cases hb : r0.matchStatus = "Break"
    · rw [if_pos hb] at h
      cases labels with
      | nil =>
        rcases List.mem_cons.1 h with rfl | h2
        · exact ⟨Or.inl rfl, fun _ => rfl⟩
        · exact assignAnomalies_mem rs [] r h2
      | cons l ls =>
        rcases List.mem_cons.1 h with rfl | h2
        · refine ⟨mapBinaryLabel_getD l, fun hm => ?_⟩
          exact absurd (hb.symm.trans hm) (by decide)
        · exact assignAnomalies_mem rs ls r h2
    · rw [if_neg hb] at h
      rcases List.mem_cons.1 h with rfl | h2
      · exact ⟨Or.inl rfl, fun _ => rfl⟩
      · exact assignAnomalies_mem rs labels r h2

theorem detect_anomalies_mem (fitPredict : List (ℚ × ℚ) → List Int)
    (df : List Row) (r : Row) (h : r ∈ (detect_anomalies fitPredict df).1) :
    (r.isAnomaly = 0 ∨ r.isAnomaly = 1)
    ∧ (r.matchStatus = "Match" → r.isAnomaly = 0) := by
  unfold detect_anomalies at h
  by_cases he : (df.filter fun r => r.matchStatus == "Break").isEmpty
  · rw [if_pos he] at h
    rcases List.mem_map.1 h with ⟨s, _, rfl⟩
    exact ⟨Or.inl rfl, fun _ => rfl⟩
  · rw [if_neg he] at h
    exact assignAnomalies_mem _ _ _ h

theorem assignScores_mem :
    ∀ (rs : List Row) (ss : List ℚ) (r : Row), r ∈ assignScores rs ss →
      ∃ r0 ∈ rs, r.isAnomaly = r0.isAnomaly ∧ r.matchStatus = r0.matchStatus
  | [], _, _, h => by simp [assignScores] at h
  | r0 :: rs, [], r, h => by
    unfold assignScores at h
    rcases List.mem_cons.1 h with rfl | h2
    · exact ⟨r0, List.mem_cons_self _ _, rfl, rfl⟩
    · rcases assignScores_mem rs [] r h2 with ⟨s, hs, h3, h4⟩
      exact ⟨s, List.mem_cons_of_mem _ hs, h3, h4⟩
  | r0 :: rs, q :: qs, r, h => by
    unfold assignScores at h
    rcases List.mem_cons.1 h with rfl | h2
    · exact ⟨r0, List.mem_cons_self _ _, rfl, rfl⟩
    · rcases assignScores_mem rs qs r h2 with ⟨s, hs, h3, h4⟩
      exact ⟨s, List.mem_cons_of_mem _ hs, h3, h4⟩

theorem addPrevAux_map_sortKey :
    ∀ (m : List (String × ℚ)) (df : List Row),
      (addPrevAux m df).map (fun r => (r.compositeKey, r.asofDate))
        = df.map fun r => (r.compositeKey, r.asofDate)
  | _, [] => rfl
  | m, r :: rs => by
    unfold addPrevAux
    simp only [List.map_cons]
    rw [addPrevAux_map_sortKey _ rs]

theorem pairwise_rowLE_of_map_eq {l1 l2 : List Row}
    (h : l1.map (fun r => (r.compositeKey, r.asofDate))
        = l2.map fun r => (r.compositeKey, r.asofDate))
    (hp : l1.Pairwise rowLE) : l2.Pairwise rowLE := by
  have h1 : (l1.map fun r => (r.compositeKey, r.asofDate)).Pairwise
      (fun x y : String × Int => x.1 < y.1 ∨ (x.1 = y.1 ∧ x.2 ≤ y.2)) := by
    rw [List.pairwise_map]
    exact hp
  rw [h, List.pairwise_map] at h1
  exact h1

theorem differenceEngine_pairwise (df : List Row) :
    (differenceEngine df).Pairwise rowLE := by
  have h1 : (preprocess_data df).Pairwise rowLE :=
    List.sorted_insertionSort rowLE (df.map preRow)
  have h2 : (differenceEngine df).map (fun r => (r.compositeKey, r.asofDate))
      = (preprocess_data df).map fun r => (r.compositeKey, r.asofDate) := by
    unfold differenceEngine add_previous_differences calculate_differences
    rw [addPrevAux_map_sortKey, List.map_map]
    exact List.map_congr_left fun r _ => rfl
  exact pairwise_rowLE_of_map_eq h2.symm h1

theorem addPrevAux_filter_linkage (k : String) :
    ∀ (df : List Row) (m : List (String × ℚ)),
      (∀ r0, (((addPrevAux m df).filter fun r => r.compositeKey == k).head?
            = some r0) → r0.prevBalanceDifference = m.lookup k)
      ∧ ((addPrevAux m df).filter fun r => r.compositeKey == k).Chain'
          (fun a b => b.prevBalanceDifference = some a.balanceDifference)
  | [], m => by
    constructor
    · intro r0 h0
      simp [addPrevAux] at h0
    · simp [addPrevAux]
  | r :: rs, m => by
    unfold addPrevAux
    by_cases hk : r.compositeKey = k
    · rw [List.filter_cons_of_pos (by simpa using hk)]
      constructor
      · intro r0 h0
        injection h0 with h0
        subst h0
        show List.lookup r.compositeKey m = m.lookup k
        rw [hk]
      · rw [List.chain'_cons']
        refine ⟨?_, (addPrevAux_filter_linkage k rs _).2⟩
        intro b hb
        have := (addPrevAux_filter_linkage k rs
          ((r.compositeKey, r.balanceDifference) :: m)).1 b hb
        rw [this]
        show List.lookup k ((r.compositeKey, r.balanceDifference) :: m)
          = some r.balanceDifference
        simp [List.lookup, hk.symm]
    · rw [List.filter_cons_of_neg (by simpa using hk)]
      constructor
      · intro r0 h0
        have := (addPrevAux_filter_linkage k rs
          ((r.compositeKey, r.balanceDifference) :: m)).1 r0 h0
        rw [this]
        have hne : (k == r.compositeKey) = false := by
          simp
          exact fun hkk => hk hkk.symm
        simp [List.lookup, hne]
      · exact (addPrevAux_filter_linkage k rs _).2

theorem addPrevAux_diffChange :
    ∀ (m : List (String × ℚ)) (df : List Row) (r : Row), r ∈ addPrevAux m df →
      r.differenceChange
        = Option.map (fun p => r.balanceDifference - p) r.prevBalanceDifference
  | _, [], _, h => by simp [addPrevAux] at h
  | m, s :: rs, r, h => by
    unfold addPrevAux at h
    rcases List.mem_cons.1 h with rfl | h2
    · rfl
    · exact addPrevAux_diffChange _ rs r h2

theorem c4g_eq : c4g = [{ calcRow (preRow (mkRow 1 "Co1" "Acc1" 100 100)) with
    prevBalanceDifference := none, differenceChange := none }] := by
  have hpipe : differenceEngine [mkRow 1 "Co1" "Acc1" 100 100]
      = [{ calcRow (preRow (mkRow 1 "Co1" "Acc1" 100 100)) with
            prevBalanceDifference := none, differenceChange := none }] := by
    simp [differenceEngine, preprocess_data, calculate_differences,
      add_previous_differences, List.insertionSort, List.orderedInsert, addPrevAux]
  have hcond : ({ calcRow (preRow (mkRow 1 "Co1" "Acc1" 100 100)) with
      prevBalanceDifference := none, differenceChange := none }.compositeKey
        == c4key) = true := beq_self_eq_true _
  unfold c4g c4df
  rw [hpipe]
  simp only [List.filter, hcond]

theorem processed_calcRow_preRow (r : Row) : Processed (calcRow (preRow r)) :=
  ⟨round2_idem _, round2_idem _, rfl, rfl, rfl, rfl, rfl⟩

theorem addPrevAux_processed :
    ∀ (m : List (String × ℚ)) (df : List Row), (∀ s ∈ df, Processed s) →
      ∀ r ∈ addPrevAux m df, Processed r
  | _, [], _, _, h => by simp [addPrevAux] at h
  | m, s :: rs, hall, r, h => by
    unfold addPrevAux at h
    rcases List.mem_cons.1 h with rfl | h2
    · exact hall s (List.mem_cons_self _ _)
    · exact addPrevAux_processed _ rs
        (fun t ht => hall t (List.mem_cons_of_mem _ ht)) r h2

theorem differenceEngine_processed (df : List Row) :
    ∀ r ∈ differenceEngine df, Processed r := by
  intro r hr
  unfold differenceEngine add_previous_differences at hr
  refine addPrevAux_processed _ _ ?_ r hr
  intro s hs
  unfold calculate_differences at hs
  rcases List.mem_map.1 hs with ⟨t, ht, rfl⟩
  unfold preprocess_data at ht
  rw [List.mem_insertionSort] at ht
  rcases List.mem_map.1 ht with ⟨u, _, rfl⟩
  exact processed_calcRow_preRow u

theorem preRow_of_processed (r : Row) (h : Processed r) : preRow r = r := by
  obtain ⟨h1, h2, h3, _⟩ := h
  cases r with
  | mk a co ac au2 cu pa sa gl ih key bd ad ms pct prev dc ia sc bc cm =>
    simp only [preRow, makeCompositeKey, Row.mk.injEq, eq_self_iff_true,
      true_and, and_true] at h3 ⊢
    exact ⟨h1, h2, h3.symm⟩

theorem calcRow_of_processed (r : Row) (h : Processed r) : calcRow r = r := by
  obtain ⟨_, _, _, h4, h5, h6, h7⟩ := h
  cases r with
  | mk a co ac au2 cu pa sa gl ih key bd ad ms pct prev dc ia sc bc cm =>
    simp only [calcRow, Row.mk.injEq, eq_self_iff_true, true_and, and_true]
    exact ⟨h4.symm, h5.symm, h6.symm, h7.symm⟩

theorem addPrevAux_map_strip :
    ∀ (m : List (String × ℚ)) (df : List Row),
      (addPrevAux m df).map (fun r =>
        { r with prevBalanceDifference := none, differenceChange := none })
      = df.map fun r =>
        { r with prevBalanceDifference := none, differenceChange := none }
  | _, [] => rfl
  | m, r :: rs => by
    unfold addPrevAux
    simp only [List.map_cons]
    rw [addPrevAux_map_strip _ rs]

theorem addPrevAux_congr_strip :
    ∀ (m : List (String × ℚ)) (df1 df2 : List Row),
      df1.map (fun r =>
          { r with prevBalanceDifference := none, differenceChange := none })
        = df2.map (fun r =>
          { r with prevBalanceDifference := none, differenceChange := none }) →
      addPrevAux m df1 = addPrevAux m df2
  | _, [], [], _ => rfl
  | _, [], _ :: _, h => by simp at h
  | _, _ :: _, [], h => by simp at h
  | m, r1 :: rs1, r2 :: rs2, h => by
    simp only [List.map_cons, List.cons.injEq] at h
    obtain ⟨hh, ht⟩ := h
    cases r1 with
    | mk a1 co1 ac1 au1 cu1 pa1 sa1 gl1 ih1 key1 bd1 ad1 ms1 pct1 prev1 dc1 ia1 sc1 bc1 cm1 =>
    cases r2 with
    | mk a2 co2 ac2 au2 cu2 pa2 sa2 gl2 ih2 key2 bd2 ad2 ms2 pct2 prev2 dc2 ia2 sc2 bc2 cm2 =>
    simp only [Row.mk.injEq, and_true, true_and] at hh
    obtain ⟨e1, e2, e3, e4, e5, e6, e7, e8, e9, e10, e11, e12, e13, e14,
      e15, e16, e17, e18⟩ := hh
    subst_vars
    unfold addPrevAux
    rw [addPrevAux_congr_strip _ rs1 rs2 ht]

theorem differenceEngine_idem (df : List Row) :
    differenceEngine (differenceEngine df) = differenceEngine df := by
  have hproc := differenceEngine_processed df
  have hsorted : (differenceEngine df).Pairwise rowLE := differenceEngine_pairwise df
  have hpre : preprocess_data (differenceEngine df) = differenceEngine df := by
    unfold preprocess_data
    rw [List.map_congr_left fun r hr => preRow_of_processed r (hproc r hr),
      List.map_id']
    exact List.Sorted.insertionSort_eq hsorted
  have hcalc : calculate_differences (differenceEngine df) = differenceEngine df := by
    unfold calculate_differences
    rw [List.map_congr_left fun r hr => calcRow_of_processed r (hproc r hr),
      List.map_id']
  show add_previous_differences (calculate_differences
    (preprocess_data (differenceEngine df))) = differenceEngine df
  rw [hpre, hcalc]
  show addPrevAux [] (differenceEngine df) = differenceEngine df
  conv_lhs =>
    rw [show differenceEngine df
      = addPrevAux [] (calculate_differences (preprocess_data df)) from rfl]
  exact addPrevAux_congr_strip [] _ _
    (addPrevAux_map_strip [] (calculate_differences (preprocess_data df)))

/-- C1: the claim says a batch with at least one record and zero Break
records runs the Anomaly Scorer (detect_anomalies then
calculate_anomaly_scores) without raising, leaving all-zero flags and
scores.  The code violates this: `detect_anomalies` returns early without
fitting scaler or model, and `calculate_anomaly_scores` then calls
`scaler.transform` on the non-empty feature frame (its guard only covers
`len(features) == 0`), raising scikit-learn's NotFittedError.  Shown on a
one-record all-Match batch, for every behaviour of the abstract
scikit-learn calls. -/
theorem C1_zero_break_scoring_raises
    (fitPredict : List (ℚ × ℚ) → List Int)
    (scoreSamples : List (ℚ × ℚ) → List ℚ) :
    anomalyScorerRun fitPredict scoreSamples
        (differenceEngine [mkRow 1 "Co1" "Acc1" 100 100])
      = .error "NotFittedError: This StandardScaler instance is not fitted yet." := by
  have hms : (calcRow (preRow (mkRow 1 "Co1" "Acc1" 100 100))).matchStatus = "Match" := by
    simp [calcRow, preRow, mkRow]
  have hpipe : differenceEngine [mkRow 1 "Co1" "Acc1" 100 100]
      = [{ calcRow (preRow (mkRow 1 "Co1" "Acc1" 100 100)) with
            prevBalanceDifference := none, differenceChange := none }] := by
    simp [differenceEngine, preprocess_data, calculate_differences,
      add_previous_differences, List.insertionSort, List.orderedInsert, addPrevAux]
  rw [anomalyScorerRun, hpipe, detect_anomalies]
  simp [hms, calculate_anomaly_scores]

/-- C2: the claim says that with the narrative collaborator absent (no
HuggingFace token) the pipeline completes, assigning fixed placeholder
comments to Break and Match records.  The code violates this:
`ai_insights.py` never imports numpy, so the token-absent branch of
`generate_break_comments` raises `NameError: name np is not defined` at
its `np.where` call, and `ReconciliationWorkflow.execute` catches the
exception and aborts, returning False.  Shown on a batch with one Break
record, so every earlier stage succeeds and the insight stage is
reached. -/
theorem C2_missing_token_aborts_pipeline :
    execute false (fun xs => xs.map fun _ => -1) (fun xs => xs.map fun _ => 0)
        (fun _ => "") (fun _ => "") [mkRow 2 "Co1" "Acc1" 105 100] = false
    ∧ executeCore false (fun xs => xs.map fun _ => -1) (fun xs => xs.map fun _ => 0)
        (fun _ => "") (fun _ => "") [mkRow 2 "Co1" "Acc1" 105 100]
      = .error "NameError: name np is not defined" := by
  have hms : (calcRow (preRow (mkRow 2 "Co1" "Acc1" 105 100))).matchStatus = "Break" := by
    norm_num [calcRow, preRow, mkRow, round2_105, round2_100]
  have hpipe : differenceEngine [mkRow 2 "Co1" "Acc1" 105 100]
      = [{ calcRow (preRow (mkRow 2 "Co1" "Acc1" 105 100)) with
            prevBalanceDifference := none, differenceChange := none }] := by
    simp [differenceEngine, preprocess_data, calculate_differences,
      add_previous_differences, List.insertionSort, List.orderedInsert, addPrevAux]
  have hcore : executeCore false (fun xs => xs.map fun _ => -1) (fun xs => xs.map fun _ => 0)
        (fun _ => "") (fun _ => "") [mkRow 2 "Co1" "Acc1" 105 100]
      = .error "NameError: name np is not defined" := by
    rw [executeCore, hpipe]
    simp only [anomalyScorerRun, detect_anomalies, hms, calculate_anomaly_scores,
      assignAnomalies, classify_all, generate_break_comments]
    rfl
  exact ⟨by rw [execute, hcore], hcore⟩

/-- C3: for every record produced by the Difference Engine's
`calculate_differences`, `match_status = Match` iff
`|gl_balance - ihub_balance| < 1.0`, and otherwise the status is
`Break`. -/
theorem C3_match_status_iff (df : List Row) (r : Row)
    (h : r ∈ calculate_differences df) :
    (r.matchStatus = "Match" ↔ |r.glBalance - r.ihubBalance| < 1)
    ∧ (¬ |r.glBalance - r.ihubBalance| < 1 → r.matchStatus = "Break") := by
  rcases List.mem_map.1 h with ⟨s, _, rfl⟩
  by_cases hlt : |s.glBalance - s.ihubBalance| < 1 <;>
    simp [calcRow, hlt]

/-- Witness for C3 at a concrete Break record (difference 5.00). -/
theorem C3_witness :
    ((calcRow (mkRow 2 "Co1" "Acc1" 105 100)).matchStatus = "Match"
        ↔ |(calcRow (mkRow 2 "Co1" "Acc1" 105 100)).glBalance
            - (calcRow (mkRow 2 "Co1" "Acc1" 105 100)).ihubBalance| < 1)
    ∧ (¬ |(calcRow (mkRow 2 "Co1" "Acc1" 105 100)).glBalance
            - (calcRow (mkRow 2 "Co1" "Acc1" 105 100)).ihubBalance| < 1 →
        (calcRow (mkRow 2 "Co1" "Acc1" 105 100)).matchStatus = "Break") :=
  C3_match_status_iff [mkRow 2 "Co1" "Acc1" 105 100] _
    (List.mem_map_of_mem _ (List.mem_singleton_self _))

/-- C4: in the Difference Engine's output, every group of records sharing
one composite identity key is in ascending as-of-date order, the first
record of the group has null `previous_balance_difference`, each later
record's `previous_balance_difference` equals the `balance_difference` of
its predecessor in the group, and `difference_change` is
`balance_difference - previous_balance_difference`, null when there is no
previous record. -/
theorem C4_previous_difference_linkage (df : List Row) (k : String) :
    (∀ r0, ((((differenceEngine df).filter fun r => r.compositeKey == k).head?)
          = some r0) → r0.prevBalanceDifference = none)
    ∧ (((differenceEngine df).filter fun r => r.compositeKey == k).Chain'
        fun a b => b.prevBalanceDifference = some a.balanceDifference)
    ∧ (∀ r ∈ (differenceEngine df).filter fun r => r.compositeKey == k,
        r.differenceChange
          = Option.map (fun p => r.balanceDifference - p) r.prevBalanceDifference)
    ∧ (((differenceEngine df).filter fun r => r.compositeKey == k).Chain'
        fun a b => a.asofDate ≤ b.asofDate) := by
  have hbase := addPrevAux_filter_linkage k
    (calculate_differences (preprocess_data df)) []
  refine ⟨?_, ?_, ?_, ?_⟩
  · intro r0 h0
    have := hbase.1 r0 h0
    simpa using this
  · exact hbase.2
  · intro r hr
    exact addPrevAux_diffChange [] _ r (List.mem_of_mem_filter hr)
  · have hp : ((differenceEngine df).filter fun r => r.compositeKey == k).Pairwise
        rowLE := (differenceEngine_pairwise df).sublist (List.filter_sublist _)
    refine (hp.imp_of_mem ?_).chain'
    intro a b ha hb hab
    have hka : a.compositeKey = k := by simpa using List.of_mem_filter ha
    have hkb : b.compositeKey = k := by simpa using List.of_mem_filter hb
    rcases hab with h | ⟨_, h⟩
    · rw [hka, hkb] at h
      exact absurd h (lt_irrefl k)
    · exact h

/-- Witness for C4 on a concrete one-record group. -/
theorem C4_witness :
    c4g.headI.prevBalanceDifference = none
    ∧ c4g.Chain' (fun a b => b.prevBalanceDifference = some a.balanceDifference)
    ∧ c4g.headI.differenceChange
        = Option.map (fun p => c4g.headI.balanceDifference - p)
            c4g.headI.prevBalanceDifference
    ∧ c4g.Chain' fun a b => a.asofDate ≤ b.asofDate := by
  have t := C4_previous_difference_linkage c4df c4key
  refine ⟨t.1 c4g.headI ?_, t.2.1, t.2.2.1 c4g.headI ?_, t.2.2.2⟩
  · show c4g.head? = some c4g.headI
    rw [c4g_eq]
    rfl
  · show c4g.headI ∈ c4g
    rw [c4g_eq]
    exact List.mem_singleton_self _

/-- C5: break classification is total and deterministic — `classify_break`
always returns a label of the fixed eight-label taxonomy, equals the
first-match evaluation of the eight ordered rules of spec §4.4
(`specRuleChain`, written from the spec), never returns `New Difference`
when the previous difference is the non-null value 0, and re-running
`classify_all` on an already-classified record set reproduces it
exactly. -/
theorem C5_classifier_total_ordered (ms : String) (d : ℚ) (p : Option ℚ)
    (df out : List Row) :
    classify_break ms d p ∈ breakTaxonomy
    ∧ classify_break ms d p = specRuleChain ms d p
    ∧ (p = some 0 → classify_break ms d p ≠ "New Difference")
    ∧ (classify_all true true df = .ok out → classify_all true true out = .ok out) := by
  refine ⟨?_, ?_, ?_, ?_⟩
  · unfold classify_break breakTaxonomy
    split_ifs <;> simp
  · simp only [classify_break, specRuleChain, firstLabel, beq_iff_eq,
      decide_eq_true_eq, Option.isNone_iff_eq_none]
  · intro hp
    subst hp
    unfold classify_break
    split_ifs <;> first | decide | simp_all
  · intro h
    have hout : out = df.map (fun r =>
        { r with breakClassification :=
            (classify_break r.matchStatus r.balanceDifference
              r.prevBalanceDifference) }) := by
      simpa [classify_all] using h.symm
    subst hout
    simp only [classify_all, Bool.true_eq_false, if_false, List.map_map]
    congr 1

/-- Witness for C5 at the spec §8 scenario record (d = 5, p = 0) and a
concrete one-row frame. -/
theorem C5_witness :
    classify_break "Break" 5 (some 0) ∈ breakTaxonomy
    ∧ classify_break "Break" 5 (some 0) = specRuleChain "Break" 5 (some 0)
    ∧ classify_break "Break" 5 (some 0) ≠ "New Difference"
    ∧ classify_all true true c5out = .ok c5out :=
  let t := C5_classifier_total_ordered "Break" 5 (some 0) c5df c5out
  ⟨t.1, t.2.1, t.2.2.1 rfl, t.2.2.2 rfl⟩

/-- C6 counterexample: a pipeline-produced record with
`balance_difference = 0.50` (gl 100.50, ihub 100.00) has `|d| < 1`, hence
`match_status = Match`, and the classifier's first rule labels it
`Within Tolerance`, not `Small Difference`. -/
theorem C6_counterexample :
    ((classify_all true true
        (differenceEngine [mkRow 1 "Co1" "Acc1" (201/2) 100])).map
      fun l => l.map fun r => (r.balanceDifference, r.breakClassification))
      = .ok [((1/2 : ℚ), "Within Tolerance")]
    ∧ ("Within Tolerance" : String) ≠ "Small Difference" := by
  have hgl : round2 ((201 : ℚ)/2) = (201 : ℚ)/2 := by
    have : ((201 : ℚ)/2) = ((10050 : ℤ) : ℚ) / 100 := by norm_num
    rw [this, round2_div100]
  have hms : (calcRow (preRow (mkRow 1 "Co1" "Acc1" (201/2) 100))).matchStatus = "Match" := by
    norm_num [calcRow, preRow, mkRow, hgl, round2_100, abs_of_pos]
  have hbd : (calcRow (preRow (mkRow 1 "Co1" "Acc1" (201/2) 100))).balanceDifference = 1/2 := by
    norm_num [calcRow, preRow, mkRow, hgl, round2_100]
  have hpipe : differenceEngine [mkRow 1 "Co1" "Acc1" (201/2) 100]
      = [{ calcRow (preRow (mkRow 1 "Co1" "Acc1" (201/2) 100)) with
            prevBalanceDifference := none, differenceChange := none }] := by
    simp [differenceEngine, preprocess_data, calculate_differences,
      add_previous_differences, List.insertionSort, List.orderedInsert, addPrevAux]
  constructor
  · rw [hpipe]
    simp [classify_all, classify_break, hms, hbd, Except.map]
  · decide

/-- C6 amended: a record reaching the classifier with
`match_status = Break` and `balance_difference = 0.50` is labeled
`Small Difference` regardless of its previous balance difference; a
pipeline-produced record with `|d| < 1` is a Match and gets
`Within Tolerance` instead (see the counterexample). -/
theorem C6_amended_small_difference (p : Option ℚ) :
    classify_break "Break" (1/2) p = "Small Difference" := by
  rw [classify_break, if_neg (by decide : ¬ ("Break" : String) = "Match"),
    if_pos (by norm_num [abs_of_pos] : |(1 : ℚ)/2| < 1)]

/-- C7: after the Anomaly Scorer runs (whenever it returns at all), every
record has `is_anomaly` equal to 0 or 1, and every record whose
`match_status` is Match has `is_anomaly = 0` — for every behaviour of the
abstract scikit-learn calls. -/
theorem C7_is_anomaly_binary (fitPredict : List (ℚ × ℚ) → List Int)
    (scoreSamples : List (ℚ × ℚ) → List ℚ) (df out : List Row)
    (h : anomalyScorerRun fitPredict scoreSamples df = .ok out)
    (r : Row) (hr : r ∈ out) :
    (r.isAnomaly = 0 ∨ r.isAnomaly = 1)
    ∧ (r.matchStatus = "Match" → r.isAnomaly = 0) := by
  unfold anomalyScorerRun calculate_anomaly_scores at h
  by_cases h0 : (((detect_anomalies fitPredict df).1).map breakFeature).length = 0
  · rw [if_pos h0] at h
    injection h with h
    subst h
    rcases List.mem_map.1 hr with ⟨s, hs, rfl⟩
    exact detect_anomalies_mem fitPredict df s hs
  · rw [if_neg h0] at h
    by_cases hf : (detect_anomalies fitPredict df).2 = false
    · rw [if_pos hf] at h
      cases h
    · rw [if_neg hf] at h
      injection h with h
      subst h
      rcases assignScores_mem _ _ _ hr with ⟨r0, hr0, h1, h2⟩
      have t := detect_anomalies_mem fitPredict df r0 hr0
      rw [h1, h2]
      exact t

/-- Witness for C7 on a concrete one-Break-record batch with the
IsolationForest contract output `-1` (outlier). -/
theorem C7_witness :
    (c7out.headI.isAnomaly = 0 ∨ c7out.headI.isAnomaly = 1)
    ∧ (c7out.headI.matchStatus = "Match" → c7out.headI.isAnomaly = 0) :=
  C7_is_anomaly_binary c7fp c7ss [c7row] c7out rfl c7out.headI
    (List.mem_singleton_self _)

/-- C8: running the Difference Engine a second time on an
already-differenced record set reproduces identical `balance_difference`
and `match_status` values (in fact the whole record set is reproduced,
see `differenceEngine_idem`). -/
theorem C8_difference_engine_idempotent (df : List Row) :
    (differenceEngine (differenceEngine df)).map
        (fun r => (r.balanceDifference, r.matchStatus))
      = (differenceEngine df).map fun r => (r.balanceDifference, r.matchStatus) := by
  rw [differenceEngine_idem]

/-- C9: for every record produced by `calculate_differences`,
`pct_difference` is `balance_difference / ihub_balance * 100` when
`ihub_balance ≠ 0` and null when `ihub_balance = 0`; the zero-divisor
branch yields no numeric value and the embedding is a total function
(`np.where` merely selects NaN there, raising nothing). -/
theorem C9_pct_difference (df : List Row) (r : Row)
    (h : r ∈ calculate_differences df) :
    r.pctDifference =
      if r.ihubBalance = 0 then none
      else some (r.balanceDifference / r.ihubBalance * 100) := by
  rcases List.mem_map.1 h with ⟨s, _, rfl⟩
  by_cases h0 : s.ihubBalance = 0 <;> simp [calcRow, h0]

/-- Witness for C9 at a concrete zero-divisor record. -/
theorem C9_witness :
    (calcRow (mkRow 1 "Co1" "Acc1" 5 0)).pctDifference =
      if (calcRow (mkRow 1 "Co1" "Acc1" 5 0)).ihubBalance = 0 then none
      else some ((calcRow (mkRow 1 "Co1" "Acc1" 5 0)).balanceDifference
        / (calcRow (mkRow 1 "Co1" "Acc1" 5 0)).ihubBalance * 100) :=
  C9_pct_difference [mkRow 1 "Co1" "Acc1" 5 0] _
    (List.mem_map_of_mem _ (List.mem_singleton_self _))

/-- C10: when the Previous Balance Difference column is absent,
`classify_all` does not raise — `row.get` defaults the value to the
non-null number 0, so no record is ever labeled `New Difference`; and
`classify_all` raises exactly the missing-column ValueError when the
Match Status column is absent, succeeding otherwise. -/
theorem C10_classifier_missing_columns (df out : List Row) (hasPrev : Bool) :
    classify_all false hasPrev df
        = .error "Match Status column not found. Run reconciliation first."
    ∧ (∃ l, classify_all true hasPrev df = .ok l)
    ∧ (classify_all true false df = .ok out →
        ∀ r ∈ out, r.breakClassification ≠ "New Difference") := by
  refine ⟨rfl, ⟨_, rfl⟩, ?_⟩
  intro h r hr
  have hout : out = df.map (fun r =>
      { r with breakClassification :=
          (classify_break r.matchStatus r.balanceDifference (some 0)) }) := by
    simpa [classify_all] using h.symm
  subst hout
  rcases List.mem_map.1 hr with ⟨s, _, rfl⟩
  show classify_break s.matchStatus s.balanceDifference (some 0) ≠ "New Difference"
  unfold classify_break
  split_ifs <;> first | decide | simp_all

/-- Witness for C10 on a concrete one-Break-row frame without the
Previous Balance Difference column. -/
theorem C10_witness :
    classify_all false false [c10row]
        = .error "Match Status column not found. Run reconciliation first."
    ∧ c10out.headI.breakClassification ≠ "New Difference" :=
  let t := C10_classifier_missing_columns [c10row] c10out false
  ⟨t.1, t.2.2 rfl c10out.headI (List.mem_singleton_self _)⟩
end Recon
